import Mathlib

/-!
Shallow embedding of `src/requireCssModule.js` from
`dmapper/babel-plugin-react-css-modules`.

The module resolves a CSS-like source file into a mapping of local class
names to generated scoped names.  Strings manipulated by the JavaScript
code (paths, file contents, error messages) are modelled as `List Char`,
so that the semantics of `String.prototype.lastIndexOf` and
`String.prototype.substr` can be embedded faithfully, including their
behaviour on negative indices.  External collaborators (the filesystem,
the stylus compiler, the postcss pipeline, node's `path` utilities) are
black boxes supplied through an environment record, exactly as the spec
treats them.
-/

/-- JavaScript strings, modelled as lists of characters. -/
abbrev JSString : Type := List Char

/-- JavaScript `s.lastIndexOf(c)` for a single-character search string: the index of
the last occurrence of `c` in `s`, or `-1` when `c` does not occur. -/
def jsLastIndexOf : JSString → Char → Int
  | [], _ => -1
  | x :: xs, c =>
    let r := jsLastIndexOf xs c
    if 0 ≤ r then r + 1
    else if x = c then 0 else -1

/-- JavaScript `s.substr(start)` (one-argument form): when `start` is negative it is
replaced by `max (length + start) 0`; the result is the suffix of `s`
beginning at that index. -/
def jsSubstr (s : JSString) (start : Int) : JSString :=
  let b : Int := if start < 0 then max ((s.length : Int) + start) 0 else start
  s.drop b.toNat

/-- The regular expression test matching the dialect extension: does the path end
with the characters `.styl`? -/
def endsWithStyl (path : JSString) : Bool :=
  List.isSuffixOf (['.', 's', 't', 'y', 'l']) path

/-- A reference to an extra postcss plugin in a filetype configuration
record: either a bare module name, or a `[name, options]` pair.  Plugin
option values (flow type `mixed`) are modelled as strings. -/
inductive PluginRef : Type where
  | plain (name : JSString)
  | configured (name : JSString) (config : JSString)
deriving DecidableEq

/-- A filetype option record (`FiletypeOptionsType`): a required `syntax`
module name (the empty string standing for any falsy value) and an
optional list of plugin references. -/
structure FiletypeOptions : Type where
  syn : JSString
  plugins : Option (List PluginRef)
deriving DecidableEq

/-- The `filetypes` configuration mapping (`FiletypesConfigurationType`):
a JavaScript object keyed by extension string; absent keys yield an
absent value.  The mapping itself may be absent (`none`). -/
abbrev FiletypesConfiguration : Type := JSString → Option FiletypeOptions

/-- Embedding of `getFiletypeOptions` from the source:

```
const extension = cssSourceFilePath.substr(cssSourceFilePath.lastIndexOf('.'));
const filetype = filetypes ? filetypes[extension] : null;
return filetype;
```
-/
def getFiletypeOptions (cssSourceFilePath : JSString)
    (filetypes : Option FiletypesConfiguration) : Option FiletypeOptions :=
  let extension := jsSubstr cssSourceFilePath (jsLastIndexOf cssSourceFilePath '.')
  match filetypes with
  | none => none
  | some m => m extension

/-- Embedding of `getSyntax` from the source: `null` when the record is absent or its
`syntax` field is falsy, otherwise the module loaded by name.  Dynamic
loading is modelled symbolically: the loaded module is identified by the
name it was required under. -/
def getSyntaxOf (filetypeOptions : Option FiletypeOptions) : Option JSString :=
  match filetypeOptions with
  | none => none
  | some o => if o.syn = [] then none else some o.syn

/-- The scoped-name generator handed to the Scope plugin: either the
user-supplied naming function used directly, or the symbolic result of
the `generic-names` factory applied to a pattern and a context
directory. -/
inductive ScopedNameGenerator : Type where
  | direct (f : JSString → JSString → JSString)
  | generic (pattern : JSString) (context : JSString)

/-- A plugin instance after dynamic loading, modelled symbolically.
`values`, `localByDefault`, `extractImports`, `scope` and `parserStage`
are the five baseline plugins wired by the default export; `plain` and
`configured` are dynamically required extra plugins (`require(name)` and
`require(name)(options)` respectively). -/
inductive LoadedPlugin : Type where
  | plain (name : JSString)
  | configured (name : JSString) (config : JSString)
  | values
  | localByDefault
  | extractImports
  | scope (generateScopedName : ScopedNameGenerator)
  | parserStage

/-- Embedding of `getExtraPlugins` from the source: the empty list when the record or its
`plugins` field is absent, otherwise each entry loaded — with its
configuration argument applied when the entry is a pair.
-/
def getExtraPlugins (filetypeOptions : Option FiletypeOptions) : List LoadedPlugin :=
  match filetypeOptions with
  | none => []
  | some o =>
    match o.plugins with
    | none => []
    | some ps =>
      ps.map fun plugin =>
        match plugin with
        | .plain name => LoadedPlugin.plain name
        | .configured name config => LoadedPlugin.configured name config

/-- An error object produced by the stylus compiler, with its `name` and
`message` properties. -/
structure StylusError : Type where
  name : JSString
  message : JSString
deriving DecidableEq

/-- ECMAScript `Error.prototype.toString`, used to model the coercion
performed by `new Error(err)` when `err` is itself an error object: the
resulting message is `String(err)`. -/
def errorToString (e : StylusError) : JSString :=
  if e.name = [] then e.message
  else if e.message = [] then e.name
  else e.name ++ (':' :: ' ' :: e.message)

/-- A thrown JavaScript error, identified by its message. -/
structure JsError : Type where
  message : JSString
deriving DecidableEq

/-- The error raised when the recursion between `fetch` and `getTokens`
exhausts the call stack. -/
def stackOverflowError : JsError :=
  { message := "Maximum call stack size exceeded".data }

/-- The options object handed to `runner.process`: the `from` path, and
the optional alternate `syntax` module (identified by the name it was
loaded under; `none` when the property was never set). -/
structure ProcessOptions : Type where
  fromPath : JSString
  syn : Option JSString
deriving DecidableEq

/-- A non-fatal warning emitted by the pipeline; `text` is the property
printed by the source. -/
structure Warning : Type where
  text : JSString
deriving DecidableEq

/-- The token mapping exposed by the pipeline's parsing stage
(`StyleModuleMapType`): local class name to generated scoped name. -/
abbrev StyleModuleMap : Type := List (JSString × JSString)

/-- What a finished pipeline run exposes: the token mapping on
`lazyResult.root.tokens` and the collected warnings. -/
structure ProcessResult : Type where
  tokens : StyleModuleMap
  warnings : List Warning

/-- The assembled postcss runner, as `getTokens` sees it: a `process`
operation taking source text and options.  A transform error is an
`Except.error`; the recursive resolution of `composes ... from` imports
happens inside `process` (see `runnerFor`). -/
structure Runner : Type where
  process : JSString → ProcessOptions → Except JsError ProcessResult

/-- The source text handed to the pipeline by `getTokens`: the raw file
contents, except that a path matching `/\.styl$/` is first pre-compiled
by the stylus compiler (`compiler.render`), whose reported error is
re-raised as `new Error(err)`. -/
def resolveSource (fs : JSString → JSString)
    (stylusRender : JSString → JSString → Except StylusError JSString)
    (cssSourceFilePath : JSString) : Except JsError JSString :=
  let src := fs cssSourceFilePath
  if endsWithStyl cssSourceFilePath then
    match stylusRender src cssSourceFilePath with
    | .error err => .error { message := errorToString err }
    | .ok res => .ok res
  else
    .ok src

/-- The options object built by `getTokens`: `from` is always the source
path; the `syntax` option is set from the filetype options only on the
non-dialect branch (`else if (filetypeOptions)`). -/
def processOptions (cssSourceFilePath : JSString)
    (filetypeOptions : Option FiletypeOptions) : ProcessOptions :=
  { fromPath := cssSourceFilePath
    syn :=
      if endsWithStyl cssSourceFilePath then none
      else
        match filetypeOptions with
        | none => none
        | some o => getSyntaxOf (some o) }

/-- Embedding of `getTokens` from the source.  Reads the file, pre-compiles dialect
sources, runs the pipeline, prints each warning's text (the returned
list of printed lines models the `console.warn` calls) and returns
`lazyResult.root.tokens`.
-/
def getTokens (fs : JSString → JSString)
    (stylusRender : JSString → JSString → Except StylusError JSString)
    (runner : Runner) (cssSourceFilePath : JSString)
    (filetypeOptions : Option FiletypeOptions) :
    Except JsError (StyleModuleMap × List JSString) :=
  match resolveSource fs stylusRender cssSourceFilePath with
  | .error e => .error e
  | .ok src =>
    match runner.process src (processOptions cssSourceFilePath filetypeOptions) with
    | .error e => .error e
    | .ok res => .ok (res.tokens, res.warnings.map Warning.text)

/-- The ambient world of external collaborators: the filesystem, the
stylus compiler, node's `path.dirname` and `path.resolve`, the process
working directory, the external plugin-chain transform (`run`, the
behaviour of postcss on a given plugin list, source text and options),
and the `composes ... from` import specifiers that the parsing stage
finds in each file (`importsOf`, keyed by the file's path). -/
structure Env : Type where
  fs : JSString → JSString
  stylusRender : JSString → JSString → Except StylusError JSString
  dirname : JSString → JSString
  resolve : JSString → JSString → JSString
  cwd : JSString
  run : List LoadedPlugin → JSString → ProcessOptions → Except JsError ProcessResult
  importsOf : JSString → List JSString

/-- Embedding of the `fetch` closure from the default export:

```
const fromDirectoryPath = dirname(from);
const toPath = resolve(fromDirectoryPath, to);
return getTokens(runner, toPath, filetypeOptions);
```
-/
def fetch (env : Env) (runner : Runner) (filetypeOptions : Option FiletypeOptions)
    (toRel frm : JSString) : Except JsError (StyleModuleMap × List JSString) :=
  let fromDirectoryPath := env.dirname frm
  let toPath := env.resolve fromDirectoryPath toRel
  getTokens env.fs env.stylusRender runner toPath filetypeOptions

/-- Sequential resolution of a file's `composes ... from` import
specifiers through a fetching function, as the parsing stage performs
it: a thrown error in any fetch aborts the whole run. -/
def fetchAll (f : JSString → Except JsError (StyleModuleMap × List JSString)) :
    List JSString → Except JsError Unit
  | [] => .ok ()
  | t :: ts =>
    match f t with
    | .error e => .error e
    | .ok _ => fetchAll f ts

/-- The postcss runner assembled by the default export, unrolled on a
stack-depth budget.  Processing a file first resolves every
`composes ... from` import of that file through `fetch` — with the same
runner (one budget level down) and the same captured `filetypeOptions` —
then defers to the external plugin-chain transform.  At budget zero the
call stack is exhausted. -/
def runnerFor (env : Env) (plugins : List LoadedPlugin)
    (filetypeOptions : Option FiletypeOptions) : Nat → Runner
  | 0 => { process := fun _ _ => .error stackOverflowError }
  | fuel + 1 =>
    { process := fun src opts =>
        match fetchAll
            (fun toRel => fetch env (runnerFor env plugins filetypeOptions fuel)
              filetypeOptions toRel opts.fromPath)
            (env.importsOf opts.fromPath) with
        | .error e => .error e
        | .ok _ => env.run plugins src opts }

/-- The caller-supplied `generateScopedName` configuration
(`GenerateScopedNameConfigurationType`): either a naming function or a
naming pattern string. -/
inductive GenerateScopedNameConfiguration : Type where
  | func (f : JSString → JSString → JSString)
  | pattern (p : JSString)

/-- The options record accepted by the default export (`OptionsType`). -/
structure Options : Type where
  filetypes : Option FiletypesConfiguration
  generateScopedName : Option GenerateScopedNameConfiguration
  context : Option JSString

/-- Modelled from the spec: `optionsDefaults.generateScopedName`, the
default naming pattern imported from `./schemas/optionsDefaults` — a file
that is not part of the provided sources.  The spec only says a default
pattern exists; its exact text is immaterial to every claim, so it is
modelled as an unspecified fixed pattern string. -/
def optionsDefaultsGenerateScopedName : JSString :=
  "[path]___[file]__[local]___[hash:base64:5]".data

/-- JavaScript `a || b` on an optional string: the fallback is taken when
the value is absent or falsy (the empty string). -/
def jsOrString (a : Option JSString) (b : JSString) : JSString :=
  match a with
  | none => b
  | some s => if s = [] then b else s

/-- Embedding of the `generateScopedName` selection from the default export:

```
if (options.generateScopedName && typeof options.generateScopedName === 'function') {
  generateScopedName = options.generateScopedName;
} else {
  generateScopedName = genericNames(options.generateScopedName || optionsDefaults.generateScopedName, {
    context: options.context || process.cwd()
  });
}
```

A supplied function is always truthy, so it is used directly; otherwise
the `generic-names` factory is applied to the supplied pattern (with the
default pattern substituted for an absent or falsy one) and to the
context directory (defaulting to the working directory).
-/
def computeGenerateScopedName (options : Options) (cwd : JSString) :
    ScopedNameGenerator :=
  match options.generateScopedName with
  | some (.func f) => .direct f
  | some (.pattern p) =>
    .generic (jsOrString (some p) optionsDefaultsGenerateScopedName)
      (jsOrString options.context cwd)
  | none =>
    .generic optionsDefaultsGenerateScopedName (jsOrString options.context cwd)

/-- The plugin list assembled by the default export: the dynamically
loaded extra plugins first, then the four baseline module plugins and
the parsing stage. -/
def assembledPlugins (filetypeOptions : Option FiletypeOptions)
    (generateScopedName : ScopedNameGenerator) : List LoadedPlugin :=
  getExtraPlugins filetypeOptions ++
    [LoadedPlugin.values, LoadedPlugin.localByDefault,
      LoadedPlugin.extractImports, LoadedPlugin.scope generateScopedName,
      LoadedPlugin.parserStage]

/-- Embedding of the default export of `requireCssModule.js`: chooses the scoped-name
generator, resolves the filetype options once from the top-level file's
extension, assembles the plugin list and the runner (whose parsing stage
fetches imports recursively, on a stack-depth budget `fuel`), and
extracts the tokens of the top-level file.
-/
def requireCssModule (env : Env) (fuel : Nat) (cssSourceFilePath : JSString)
    (options : Options) : Except JsError (StyleModuleMap × List JSString) :=
  let generateScopedName := computeGenerateScopedName options env.cwd
  let filetypeOptions := getFiletypeOptions cssSourceFilePath options.filetypes
  let plugins := assembledPlugins filetypeOptions generateScopedName
  let runner := runnerFor env plugins filetypeOptions fuel
  getTokens env.fs env.stylusRender runner cssSourceFilePath filetypeOptions

/-- The function `jsLastIndexOf` returns `-1` exactly when the character is absent. -/
theorem jsLastIndexOf_not_mem {s : JSString} {c : Char} (h : c ∉ s) :
    jsLastIndexOf s c = -1 := by
  induction s with
  | nil => rfl
  | cons x xs ih =>
    rw [List.mem_cons, not_or] at h
    obtain ⟨hcx, hcxs⟩ := h
    have hxc : ¬ x = c := fun hh => hcx hh.symm
    simp [jsLastIndexOf, ih hcxs, hxc]

/-- When the character occurs, `lastIndexOf` points at its last
occurrence: the suffix of `s` from that index starts with `c` and
contains no later `c`. -/
theorem jsLastIndexOf_mem {s : JSString} {c : Char} (h : c ∈ s) :
    ∃ k : Nat, jsLastIndexOf s c = (k : Int) ∧
      ∃ rest : JSString, s.drop k = c :: rest ∧ c ∉ rest := by
  induction s with
  | nil => cases h
  | cons x xs ih =>
    by_cases hm : c ∈ xs
    · obtain ⟨k, hk, rest, hdrop, hrest⟩ := ih hm
      refine ⟨k + 1, ?_, rest, ?_, hrest⟩
      · have h0 : (0 : Int) ≤ (k : Int) := Int.ofNat_nonneg k
        simp [jsLastIndexOf, hk, h0]
      · simpa using hdrop
    · have hx : x = c := by
        rcases List.mem_cons.mp h with h1 | h2
        · exact h1.symm
        · exact absurd h2 hm
      refine ⟨0, ?_, xs, ?_, hm⟩
      · have hr := jsLastIndexOf_not_mem hm
        simp [jsLastIndexOf, hr, hx]
      · simp [hx]

/-- The function `jsSubstr` at a non-negative index drops that many characters. -/
theorem jsSubstr_ofNat (s : JSString) (k : Nat) :
    jsSubstr s (k : Int) = s.drop k := by
  have h : ¬ ((k : Int) < 0) := by exact_mod_cast Int.not_lt.mpr (Int.ofNat_nonneg k)
  simp [jsSubstr, h]

/-- C2: for every source file path and filetypes mapping, the filetype
option resolver returns the record stored under the key equal to the
path's extension — the substring from the last dot to the end of the
path, including the dot — and returns an absent value (raising no error)
when no entry exists for that key or when the filetypes mapping itself
is absent. -/
theorem getFiletypeOptions_extension_lookup (path : JSString)
    (m : FiletypesConfiguration) :
    ('.' ∈ path →
      ∃ pre ext : JSString,
        path = pre ++ ext ∧ ext.head? = some '.' ∧ '.' ∉ ext.drop 1 ∧
        getFiletypeOptions path (some m) = m ext) ∧
    getFiletypeOptions path none = none := by
  constructor
  · intro hdot
    obtain ⟨k, hk, rest, hdrop, hrest⟩ := jsLastIndexOf_mem hdot
    refine ⟨path.take k, path.drop k, (List.take_append_drop k path).symm, ?_, ?_, ?_⟩
    · rw [hdrop]; rfl
    · rw [hdrop]; simpa using hrest
    · show m (jsSubstr path (jsLastIndexOf path '.')) = m (path.drop k)
      rw [hk, jsSubstr_ofNat]
  · rfl

/-- C2 witness: the resolver on the concrete path `a.css` with a mapping
holding an entry for `.css`. -/
theorem getFiletypeOptions_extension_lookup_witness :
    ('.' ∈ "a.css".data) ∧
      (∃ pre ext : JSString,
        "a.css".data = pre ++ ext ∧ ext.head? = some '.' ∧ '.' ∉ ext.drop 1 ∧
        getFiletypeOptions "a.css".data
          (some fun e => if e = ".css".data then some ⟨"sugarss".data, none⟩ else none) =
          (fun e => if e = ".css".data then some ⟨"sugarss".data, none⟩ else none) ext) :=
  ⟨by decide,
    (getFiletypeOptions_extension_lookup "a.css".data
      (fun e => if e = ".css".data then some ⟨"sugarss".data, none⟩ else none)).1
      (by decide)⟩

/-- C9: for a path containing no dot at all, the resolver's `extension`
is the final character of the path — `lastIndexOf` yields `-1` and
`substr(-1)` yields the last character — so a filetypes entry keyed by
that single character is the one matched. -/
theorem getFiletypeOptions_extensionless (front : JSString) (c : Char)
    (m : FiletypesConfiguration) (h : '.' ∉ front ++ [c]) :
    jsLastIndexOf (front ++ [c]) '.' = -1 ∧
    getFiletypeOptions (front ++ [c]) (some m) = m [c] := by
  have h1 := jsLastIndexOf_not_mem h
  refine ⟨h1, ?_⟩
  have e1 : (((front ++ [c]).length : Int) + (-1)) = (front.length : Int) := by
    push_cast [List.length_append]
    simp
  have e2 : jsSubstr (front ++ [c]) (-1) = (front ++ [c]).drop front.length := by
    unfold jsSubstr
    rw [if_pos (by norm_num : (-1 : Int) < 0), e1,
      max_eq_left (Int.ofNat_nonneg front.length)]
    simp
  show m (jsSubstr (front ++ [c]) (jsLastIndexOf (front ++ [c]) '.')) = m [c]
  rw [h1, e2, List.drop_left]

/-- C9 witness: the extensionless path `styles` matches a filetypes
entry keyed by the single character `s`. -/
theorem getFiletypeOptions_extensionless_witness :
    ('.' ∉ "style".data ++ ['s']) ∧
      (jsLastIndexOf ("style".data ++ ['s']) '.' = -1 ∧
        getFiletypeOptions ("style".data ++ ['s'])
          (some fun e => if e = ['s'] then some ⟨"sugarss".data, none⟩ else none) =
          (fun e => if e = ['s'] then some ⟨"sugarss".data, none⟩ else none) ['s']) :=
  ⟨by decide,
    getFiletypeOptions_extensionless "style".data 's'
      (fun e => if e = ['s'] then some ⟨"sugarss".data, none⟩ else none) (by decide)⟩

/-- C3: a `generateScopedName` supplied as a function is used directly
for every (local name, file) pair and the pattern-based factory is never
invoked; otherwise the generator is built by the factory from the
supplied pattern (the default pattern when absent or falsy) together
with `context`, which defaults to the working directory. -/
theorem computeGenerateScopedName_spec (options : Options) (cwd : JSString) :
    (∀ f, options.generateScopedName = some (.func f) →
      computeGenerateScopedName options cwd = .direct f) ∧
    (∀ p, p ≠ [] → options.generateScopedName = some (.pattern p) →
      computeGenerateScopedName options cwd =
        .generic p (jsOrString options.context cwd)) ∧
    ((options.generateScopedName = none ∨
        options.generateScopedName = some (.pattern [])) →
      computeGenerateScopedName options cwd =
        .generic optionsDefaultsGenerateScopedName (jsOrString options.context cwd)) ∧
    (options.context = none → jsOrString options.context cwd = cwd) := by
  refine ⟨?_, ?_, ?_, ?_⟩
  · intro f hf
    simp [computeGenerateScopedName, hf]
  · intro p hp hg
    simp [computeGenerateScopedName, hg, jsOrString, hp]
  · rintro (hg | hg) <;> simp [computeGenerateScopedName, hg, jsOrString]
  · intro hc
    simp [jsOrString, hc]

/-- C3 witness: a concrete direct naming function is returned unchanged,
and a concrete pattern configuration goes through the factory with the
default working directory. -/
theorem computeGenerateScopedName_spec_witness :
    (Options.mk none (some (.func fun localName _ => localName)) none).generateScopedName =
        some (.func fun localName _ => localName) ∧
      computeGenerateScopedName
        (Options.mk none (some (.func fun localName _ => localName)) none) "/proj".data =
        .direct (fun localName _ => localName) :=
  ⟨rfl,
    (computeGenerateScopedName_spec
      (Options.mk none (some (.func fun localName _ => localName)) none) "/proj".data).1
      (fun localName _ => localName) rfl⟩

/-- C4: the dialect pre-compile path and the alternate-syntax pipeline
option are mutually exclusive.  For a `.styl` path the pipeline options
carry no `syntax` entry — whatever filetype options were resolved — and
the pipeline input is the stylus compiler's output; the `syntax` entry
is populated (from the resolved filetype options) only on the
non-dialect branch. -/
theorem processOptions_dialect_exclusive (path : JSString)
    (fo : Option FiletypeOptions) (fs : JSString → JSString)
    (st : JSString → JSString → Except StylusError JSString) :
    (endsWithStyl path = true →
      (processOptions path fo).syn = none ∧
      ∀ compiled, st (fs path) path = .ok compiled →
        resolveSource fs st path = .ok compiled) ∧
    (endsWithStyl path = false →
      resolveSource fs st path = .ok (fs path) ∧
      (processOptions path fo).syn = getSyntaxOf fo) := by
  constructor
  · intro hstyl
    refine ⟨by simp [processOptions, hstyl], ?_⟩
    intro compiled hc
    simp [resolveSource, hstyl, hc]
  · intro hns
    refine ⟨by simp [resolveSource, hns], ?_⟩
    cases fo with
    | none => simp [processOptions, hns, getSyntaxOf]
    | some o => simp [processOptions, hns]

/-- C4 witness: a concrete `.styl` path with filetype options whose
`syntax` field is set still yields option-free pipeline options. -/
theorem processOptions_dialect_exclusive_witness :
    endsWithStyl "a.styl".data = true ∧
      ((processOptions "a.styl".data (some ⟨"sugarss".data, none⟩)).syn = none ∧
        ∀ compiled,
          (fun (_ _ : JSString) => (Except.ok "compiled".data :
              Except StylusError JSString)) "a.styl".data "a.styl".data = .ok compiled →
          resolveSource (fun _ => "a.styl".data)
            (fun _ _ => .ok "compiled".data) "a.styl".data = .ok compiled) :=
  ⟨by decide,
    (processOptions_dialect_exclusive "a.styl".data (some ⟨"sugarss".data, none⟩)
      (fun _ => "a.styl".data) (fun _ _ => .ok "compiled".data)).1 (by decide)⟩

/-- C5: when the stylus compiler reports an error for a dialect source,
`getTokens` fails with the wrapped generic error whose message is the
string form of the compiler error — a message that contains the
compiler's reported message (as a suffix) — and returns no token
mapping. -/
theorem getTokens_dialect_error (fs : JSString → JSString)
    (st : JSString → JSString → Except StylusError JSString) (runner : Runner)
    (path : JSString) (fo : Option FiletypeOptions) (e : StylusError)
    (hstyl : endsWithStyl path = true)
    (herr : st (fs path) path = .error e) :
    getTokens fs st runner path fo = .error { message := errorToString e } ∧
    ∃ pre : JSString, errorToString e = pre ++ e.message := by
  constructor
  · simp [getTokens, resolveSource, hstyl, herr]
  · unfold errorToString
    by_cases hn : e.name = []
    · exact ⟨[], by simp [hn]⟩
    · by_cases hm : e.message = []
      · exact ⟨e.name, by simp [hn, hm]⟩
      · exact ⟨e.name ++ [':', ' '], by simp [hn, hm]⟩

/-- C5 witness: a concrete failing stylus compile. -/
theorem getTokens_dialect_error_witness :
    endsWithStyl "a.styl".data = true ∧
      (fun (_ _ : JSString) => (Except.error ⟨"ParseError".data, "unexpected token".data⟩ :
          Except StylusError JSString)) ((fun (_ : JSString) => "src".data) "a.styl".data)
        "a.styl".data = .error ⟨"ParseError".data, "unexpected token".data⟩ ∧
      (getTokens (fun _ => "src".data)
          (fun _ _ => .error ⟨"ParseError".data, "unexpected token".data⟩)
          ⟨fun _ _ => .ok ⟨[], []⟩⟩ "a.styl".data none =
          .error { message := errorToString ⟨"ParseError".data, "unexpected token".data⟩ } ∧
        ∃ pre : JSString,
          errorToString ⟨"ParseError".data, "unexpected token".data⟩ =
            pre ++ "unexpected token".data) :=
  ⟨by decide, rfl,
    getTokens_dialect_error (fun _ => "src".data)
      (fun _ _ => .error ⟨"ParseError".data, "unexpected token".data⟩)
      ⟨fun _ _ => .ok ⟨[], []⟩⟩ "a.styl".data none
      ⟨"ParseError".data, "unexpected token".data⟩ (by decide) rfl⟩

/-- C6: pipeline warnings are non-fatal and surfaced only as printed
lines.  Whenever the pipeline run succeeds, `getTokens` returns exactly
the token mapping exposed by the parsing stage — however many warnings
were collected, they appear only in the printed output, never in the
returned mapping, and never turn the call into an error. -/
theorem getTokens_warnings_nonfatal (fs : JSString → JSString)
    (st : JSString → JSString → Except StylusError JSString) (runner : Runner)
    (path : JSString) (fo : Option FiletypeOptions) (src : JSString)
    (res : ProcessResult)
    (hsrc : resolveSource fs st path = .ok src)
    (hrun : runner.process src (processOptions path fo) = .ok res) :
    getTokens fs st runner path fo = .ok (res.tokens, res.warnings.map Warning.text) := by
  simp [getTokens, hsrc, hrun]

/-- C6 witness: a run that emits two warnings still returns the parsing
stage's tokens, with the warnings only printed. -/
theorem getTokens_warnings_nonfatal_witness :
    resolveSource (fun _ => "src".data) (fun _ _ => .error ⟨[], []⟩) "a.css".data =
        .ok "src".data ∧
      Runner.process ⟨fun _ _ => .ok ⟨[("x".data, "x-scoped".data)],
          [⟨"warning one".data⟩, ⟨"warning two".data⟩]⟩⟩ "src".data
        (processOptions "a.css".data none) =
        .ok ⟨[("x".data, "x-scoped".data)], [⟨"warning one".data⟩, ⟨"warning two".data⟩]⟩ ∧
      getTokens (fun _ => "src".data) (fun _ _ => .error ⟨[], []⟩)
        ⟨fun _ _ => .ok ⟨[("x".data, "x-scoped".data)],
          [⟨"warning one".data⟩, ⟨"warning two".data⟩]⟩⟩ "a.css".data none =
        .ok ([("x".data, "x-scoped".data)], ["warning one".data, "warning two".data]) :=
  ⟨rfl, rfl,
    getTokens_warnings_nonfatal (fun _ => "src".data) (fun _ _ => .error ⟨[], []⟩)
      ⟨fun _ _ => .ok ⟨[("x".data, "x-scoped".data)],
        [⟨"warning one".data⟩, ⟨"warning two".data⟩]⟩⟩ "a.css".data none "src".data
      ⟨[("x".data, "x-scoped".data)], [⟨"warning one".data⟩, ⟨"warning two".data⟩]⟩
      rfl rfl⟩

/-- A non-dialect path is handed to the pipeline as its raw file
contents. -/
theorem resolveSource_not_styl {fs : JSString → JSString}
    {st : JSString → JSString → Except StylusError JSString} {path : JSString}
    (hns : endsWithStyl path = false) : resolveSource fs st path = .ok (fs path) := by
  simp [resolveSource, hns]

/-- A dialect path whose compile succeeds is handed to the pipeline as
the compiler's output. -/
theorem resolveSource_styl_ok {fs : JSString → JSString}
    {st : JSString → JSString → Except StylusError JSString} {path : JSString}
    {compiled : JSString} (hstyl : endsWithStyl path = true)
    (hc : st (fs path) path = .ok compiled) :
    resolveSource fs st path = .ok compiled := by
  simp [resolveSource, hstyl, hc]

/-- The function `getTokens` on a successful source resolution and pipeline run. -/
theorem getTokens_eq_ok {fs : JSString → JSString}
    {st : JSString → JSString → Except StylusError JSString} {runner : Runner}
    {path : JSString} {fo : Option FiletypeOptions} {src : JSString}
    {res : ProcessResult} (hsrc : resolveSource fs st path = .ok src)
    (hrun : runner.process src (processOptions path fo) = .ok res) :
    getTokens fs st runner path fo = .ok (res.tokens, res.warnings.map Warning.text) := by
  simp [getTokens, hsrc, hrun]

/-- A runner level processing a file with no imports defers directly to
the external plugin-chain transform. -/
theorem runnerFor_no_imports {env : Env} {plugins : List LoadedPlugin}
    {fo : Option FiletypeOptions} {fuel : Nat} {src : JSString}
    {opts : ProcessOptions} (himp : env.importsOf opts.fromPath = []) :
    (runnerFor env plugins fo (fuel + 1)).process src opts = env.run plugins src opts := by
  simp [runnerFor, himp, fetchAll]

/-- A benign concrete environment used to instantiate theorems with
hypotheses at concrete inputs. -/
def sampleEnv : Env where
  fs := fun _ => "body".data
  stylusRender := fun src _ => .ok src
  dirname := fun p => p.dropLast
  resolve := fun _ t => t
  cwd := "/proj".data
  run := fun _ _ _ => .ok ⟨[], []⟩
  importsOf := fun _ => []

/-- C7: for a source file whose extension is absent from `filetypes`,
extraction proceeds with the baseline plugin set only — no extra plugins
are loaded, no alternate `syntax` module is loaded or set — and the call
succeeds whenever the external pipeline does, raising nothing for the
unmatched extension. -/
theorem requireCssModule_unmatched_extension (env : Env) (options : Options)
    (path : JSString) (fuel : Nat) (res : ProcessResult)
    (hfo : getFiletypeOptions path options.filetypes = none)
    (hns : endsWithStyl path = false)
    (himp : env.importsOf path = [])
    (hrun : env.run
        [LoadedPlugin.values, LoadedPlugin.localByDefault, LoadedPlugin.extractImports,
          LoadedPlugin.scope (computeGenerateScopedName options env.cwd),
          LoadedPlugin.parserStage]
        (env.fs path) { fromPath := path, syn := none } = .ok res) :
    getExtraPlugins (getFiletypeOptions path options.filetypes) = [] ∧
    getSyntaxOf (getFiletypeOptions path options.filetypes) = none ∧
    requireCssModule env (fuel + 1) path options =
      .ok (res.tokens, res.warnings.map Warning.text) := by
  refine ⟨by rw [hfo]; rfl, by rw [hfo]; rfl, ?_⟩
  unfold requireCssModule
  rw [hfo]
  refine getTokens_eq_ok (resolveSource_not_styl hns) ?_
  rw [runnerFor_no_imports (by simpa [processOptions] using himp)]
  simpa [assembledPlugins, getExtraPlugins, processOptions, hns] using hrun

/-- C7 witness: a `.sass` path against a filetypes mapping that only
knows `.scss`. -/
theorem requireCssModule_unmatched_extension_witness :
    getFiletypeOptions "a.sass".data
        (Options.mk (some fun e => if e = ".scss".data then some ⟨"pscss".data, none⟩ else none)
          none none).filetypes = none ∧
      endsWithStyl "a.sass".data = false ∧
      sampleEnv.importsOf "a.sass".data = [] ∧
      (getExtraPlugins (getFiletypeOptions "a.sass".data
          (Options.mk (some fun e => if e = ".scss".data then some ⟨"pscss".data, none⟩ else none)
            none none).filetypes) = [] ∧
        getSyntaxOf (getFiletypeOptions "a.sass".data
          (Options.mk (some fun e => if e = ".scss".data then some ⟨"pscss".data, none⟩ else none)
            none none).filetypes) = none ∧
        requireCssModule sampleEnv 1 "a.sass".data
          (Options.mk (some fun e => if e = ".scss".data then some ⟨"pscss".data, none⟩ else none)
            none none) = .ok ([], [])) :=
  ⟨by decide, by decide, rfl,
    requireCssModule_unmatched_extension sampleEnv
      (Options.mk (some fun e => if e = ".scss".data then some ⟨"pscss".data, none⟩ else none)
        none none) "a.sass".data 0 ⟨[], []⟩ (by decide) (by decide) rfl rfl⟩

/-- C10: for a dialect (`.styl`) source whose extension also has a
`filetypes` entry, the entry's extra plugins are still loaded and
prepended to the pipeline — the dialect branch suppresses only the
`syntax` option, which stays unset, not the extra plugins. -/
theorem requireCssModule_dialect_extras (env : Env) (options : Options)
    (path : JSString) (fuel : Nat) (o : FiletypeOptions)
    (compiled : JSString) (res : ProcessResult)
    (hstyl : endsWithStyl path = true)
    (hfo : getFiletypeOptions path options.filetypes = some o)
    (hc : env.stylusRender (env.fs path) path = .ok compiled)
    (himp : env.importsOf path = [])
    (hrun : env.run
        (getExtraPlugins (some o) ++
          [LoadedPlugin.values, LoadedPlugin.localByDefault, LoadedPlugin.extractImports,
            LoadedPlugin.scope (computeGenerateScopedName options env.cwd),
            LoadedPlugin.parserStage])
        compiled { fromPath := path, syn := none } = .ok res) :
    (processOptions path (some o)).syn = none ∧
    requireCssModule env (fuel + 1) path options =
      .ok (res.tokens, res.warnings.map Warning.text) := by
  refine ⟨by simp [processOptions, hstyl], ?_⟩
  unfold requireCssModule
  rw [hfo]
  refine getTokens_eq_ok (resolveSource_styl_ok hstyl hc) ?_
  rw [runnerFor_no_imports (by simpa [processOptions] using himp)]
  simpa [assembledPlugins, processOptions, hstyl] using hrun

/-- C10 witness: a `.styl` path whose filetypes entry lists two extra
plugins, in an environment whose pipeline succeeds. -/
theorem requireCssModule_dialect_extras_witness :
    endsWithStyl "a.styl".data = true ∧
      getFiletypeOptions "a.styl".data
        (Options.mk (some fun e =>
            if e = ".styl".data
            then some ⟨[], some [.plain "p-one".data, .configured "p-two".data "cfg".data]⟩
            else none) none none).filetypes =
        some ⟨[], some [.plain "p-one".data, .configured "p-two".data "cfg".data]⟩ ∧
      sampleEnv.stylusRender (sampleEnv.fs "a.styl".data) "a.styl".data = .ok "body".data ∧
      sampleEnv.importsOf "a.styl".data = [] ∧
      ((processOptions "a.styl".data
          (some ⟨[], some [.plain "p-one".data, .configured "p-two".data "cfg".data]⟩)).syn =
            none ∧
        requireCssModule sampleEnv 1 "a.styl".data
          (Options.mk (some fun e =>
              if e = ".styl".data
              then some ⟨[], some [.plain "p-one".data, .configured "p-two".data "cfg".data]⟩
              else none) none none) = .ok ([], [])) :=
  ⟨by decide, by decide, rfl, rfl,
    requireCssModule_dialect_extras sampleEnv
      (Options.mk (some fun e =>
          if e = ".styl".data
          then some ⟨[], some [.plain "p-one".data, .configured "p-two".data "cfg".data]⟩
          else none) none none)
      "a.styl".data 0 ⟨[], some [.plain "p-one".data, .configured "p-two".data "cfg".data]⟩
      "body".data ⟨[], []⟩ (by decide) (by decide) rfl rfl rfl⟩

/-- C1: the function `fetch` resolves the imported relative path against the
importing file's directory and extracts tokens from that absolute path
with whatever filetype options it captured; in the default export those
are the options resolved once from the top-level file, so the whole
computation is invariant under changes to `filetypes` entries for any
other extension — filetype dispatch is never re-evaluated for imported
files. -/
theorem fetch_reuses_top_level_options :
    (∀ (env : Env) (runner : Runner) (fo : Option FiletypeOptions)
        (toRel frm : JSString),
      fetch env runner fo toRel frm =
        getTokens env.fs env.stylusRender runner (env.resolve (env.dirname frm) toRel) fo) ∧
    (∀ (env : Env) (fuel : Nat) (path : JSString)
        (g : Option GenerateScopedNameConfiguration) (c : Option JSString)
        (ft ft' : Option FiletypesConfiguration),
      getFiletypeOptions path ft = getFiletypeOptions path ft' →
      requireCssModule env fuel path ⟨ft, g, c⟩ =
        requireCssModule env fuel path ⟨ft', g, c⟩) := by
  constructor
  · intro env runner fo toRel frm
    rfl
  · intro env fuel path g c ft ft' h
    have hg : computeGenerateScopedName ⟨ft, g, c⟩ env.cwd =
        computeGenerateScopedName ⟨ft', g, c⟩ env.cwd := rfl
    show getTokens env.fs env.stylusRender
        (runnerFor env
          (assembledPlugins (getFiletypeOptions path ft)
            (computeGenerateScopedName ⟨ft, g, c⟩ env.cwd))
          (getFiletypeOptions path ft) fuel)
        path (getFiletypeOptions path ft) = _
    rw [h, hg]
    rfl

/-- C1 witness: two filetypes mappings agreeing on the top-level `.css`
extension but disagreeing on `.scss` (an extension an imported file
might have) produce identical results. -/
theorem fetch_reuses_top_level_options_witness :
    getFiletypeOptions "a.css".data (some fun _ => none) =
        getFiletypeOptions "a.css".data
          (some fun e => if e = ".scss".data then some ⟨"pscss".data, none⟩ else none) ∧
      requireCssModule sampleEnv 2 "a.css".data ⟨some fun _ => none, none, none⟩ =
        requireCssModule sampleEnv 2 "a.css".data
          ⟨some fun e => if e = ".scss".data then some ⟨"pscss".data, none⟩ else none,
            none, none⟩ :=
  ⟨by decide,
    fetch_reuses_top_level_options.2 sampleEnv 2 "a.css".data none none
      (some fun _ => none)
      (some fun e => if e = ".scss".data then some ⟨"pscss".data, none⟩ else none)
      (by decide)⟩

/-- The function `getTokens` propagates a pipeline error unchanged. -/
theorem getTokens_eq_error {fs : JSString → JSString}
    {st : JSString → JSString → Except StylusError JSString} {runner : Runner}
    {path : JSString} {fo : Option FiletypeOptions} {src : JSString} {e : JsError}
    (hsrc : resolveSource fs st path = .ok src)
    (hrun : runner.process src (processOptions path fo) = .error e) :
    getTokens fs st runner path fo = .error e := by
  simp [getTokens, hsrc, hrun]

/-- A runner level whose single import fetch ends in the stack-depth
error propagates that error from its processing step. -/
theorem runnerFor_single_import_error {env : Env} {plugins : List LoadedPlugin}
    {fo : Option FiletypeOptions} {n : Nat} {src : JSString}
    {opts : ProcessOptions} {t : JSString}
    (himp : env.importsOf opts.fromPath = [t])
    (hf : fetch env (runnerFor env plugins fo n) fo t opts.fromPath =
      .error stackOverflowError) :
    (runnerFor env plugins fo (n + 1)).process src opts = .error stackOverflowError := by
  simp [runnerFor, himp, fetchAll, hf]

/-- Two mutually importing non-dialect files drive the runner's fetch
recursion to the bottom of any stack budget: at every budget, extracting
either file's tokens ends in the stack-depth error. -/
theorem cycle_getTokens_error (env : Env) (plugins : List LoadedPlugin)
    (fo : Option FiletypeOptions) (a b ta tb : JSString)
    (ha : endsWithStyl a = false) (hb : endsWithStyl b = false)
    (hia : env.importsOf a = [ta]) (hib : env.importsOf b = [tb])
    (hra : env.resolve (env.dirname a) ta = b)
    (hrb : env.resolve (env.dirname b) tb = a) :
    ∀ fuel : Nat,
      getTokens env.fs env.stylusRender (runnerFor env plugins fo fuel) a fo =
          .error stackOverflowError ∧
        getTokens env.fs env.stylusRender (runnerFor env plugins fo fuel) b fo =
          .error stackOverflowError := by
  intro fuel
  induction fuel with
  | zero =>
    constructor
    · simp [getTokens, resolveSource_not_styl ha, runnerFor]
    · simp [getTokens, resolveSource_not_styl hb, runnerFor]
  | succ n ih =>
    obtain ⟨iha, ihb⟩ := ih
    constructor
    · refine getTokens_eq_error (resolveSource_not_styl ha) ?_
      refine runnerFor_single_import_error hia ?_
      show getTokens env.fs env.stylusRender (runnerFor env plugins fo n)
          (env.resolve (env.dirname a) ta) fo = .error stackOverflowError
      rw [hra]
      exact ihb
    · refine getTokens_eq_error (resolveSource_not_styl hb) ?_
      refine runnerFor_single_import_error hib ?_
      show getTokens env.fs env.stylusRender (runnerFor env plugins fo n)
          (env.resolve (env.dirname b) tb) fo = .error stackOverflowError
      rw [hrb]
      exact iha

/-- C8: the cross-file import fetcher has no cycle detection and no
visited set — for any two files that mutually reference each other
through `composes ... from`, token extraction never terminates normally:
at every stack budget the run ends in the stack-depth failure. -/
theorem requireCssModule_cycle (env : Env) (options : Options) (a b ta tb : JSString)
    (ha : endsWithStyl a = false) (hb : endsWithStyl b = false)
    (hia : env.importsOf a = [ta]) (hib : env.importsOf b = [tb])
    (hra : env.resolve (env.dirname a) ta = b)
    (hrb : env.resolve (env.dirname b) tb = a) :
    ∀ fuel : Nat, requireCssModule env fuel a options = .error stackOverflowError := by
  intro fuel
  exact (cycle_getTokens_error env
    (assembledPlugins (getFiletypeOptions a options.filetypes)
      (computeGenerateScopedName options env.cwd))
    (getFiletypeOptions a options.filetypes) a b ta tb
    ha hb hia hib hra hrb fuel).1

/-- A concrete environment in which `a.css` and `b.css` mutually import
each other through `composes ... from`. -/
def cycleEnv : Env where
  fs := fun _ => "body".data
  stylusRender := fun src _ => .ok src
  dirname := fun p => p.dropLast
  resolve := fun _ t => t
  cwd := "/proj".data
  run := fun _ _ _ => .ok ⟨[], []⟩
  importsOf := fun p =>
    if p = "a.css".data then ["b.css".data]
    else if p = "b.css".data then ["a.css".data]
    else []

/-- C8 witness: the mutual cycle between `a.css` and `b.css` at the
concrete stack budget 5. -/
theorem requireCssModule_cycle_witness :
    endsWithStyl "a.css".data = false ∧ endsWithStyl "b.css".data = false ∧
      cycleEnv.importsOf "a.css".data = ["b.css".data] ∧
      cycleEnv.importsOf "b.css".data = ["a.css".data] ∧
      cycleEnv.resolve (cycleEnv.dirname "a.css".data) "b.css".data = "b.css".data ∧
      cycleEnv.resolve (cycleEnv.dirname "b.css".data) "a.css".data = "a.css".data ∧
      requireCssModule cycleEnv 5 "a.css".data ⟨none, none, none⟩ =
        .error stackOverflowError :=
  ⟨by decide, by decide, by decide, by decide, rfl, rfl,
    requireCssModule_cycle cycleEnv ⟨none, none, none⟩ "a.css".data "b.css".data
      "b.css".data "a.css".data (by decide) (by decide) (by decide) (by decide) rfl rfl 5⟩
